import Mathlib

/-!
# Verification of the matrixGemini message-handling and resource-governance core

Shallow embedding, in Lean 4, of the parts of the repository that the
testable properties talk about:

* the Context Store (`ContextManager`, file `context.go` / `src/unnamed/part_008`),
* the two generations of the Credit/Quota Store
  (`src/credits.go`, package `main`, namespace `Legacy` below, and
  `src/core/credits.go`, package `core`, namespace `Core` below),
* the token-count computation of the Gemini backends
  (`src/gemini.go` and `src/core/llm/gemini.go`),
* the Message Router (`src/bot.go`: `handleMessage`, `handleCommand`,
  `handleImageMessage`, `processGeminiRequest`, `processVisionRequest`).

Conventions of the embedding:

* Go maps are modelled as association lists (`List (String × α)`) with
  `List.lookup` and an in-place `updateAssoc`; iteration order is never
  observed by the modelled code.
* Go `int` is modelled as `Int`; Go `len` on strings (UTF-8 byte length)
  is `String.utf8ByteSize`.
* External collaborators (the NaCl `secretbox` library, the HTTP
  transport, the Matrix SDK download/decrypt helpers, the lookup
  modules) are passed in as explicit oracle parameters; the state of the
  on-disk credentials file is tracked through an explicit effect trace
  (`Effect.fileWrite`), so "the call wrote the file" is visible in the
  model.
* Side effects of a handler (sent replies, provider invocations, file
  writes, module calls) are returned as an ordered `List Effect`.
-/

/-! ## Context Store (`src/unnamed/part_008`) -/

/-- One conversation turn: `type Message struct { Role, Content string }`. -/
structure Message where
  role : String
  content : String
deriving Repr, DecidableEq

/-- `type Conversation struct { Messages []Message; MaxHistory int }`. -/
structure Conversation where
  messages : List Message
  maxHistory : Nat
deriving Repr, DecidableEq

/-- `type ContextManager struct { conversations map[string]*Conversation; maxHistory int }`.
The Go `maxHistory` config value is a count; it is modelled as `Nat`
(the Go code would panic on a negative configured history bound). -/
structure ContextManager where
  conversations : List (String × Conversation)
  maxHistory : Nat
deriving Repr, DecidableEq

/-- Go map assignment `m[k] = v` on the association-list model:
replaces the binding of `k` when present, appends it otherwise. -/
def updateAssoc {α : Type} (l : List (String × α)) (k : String) (v : α) :
    List (String × α) :=
  match l with
  | [] => [(k, v)]
  | (k', v') :: rest =>
    if k' = k then (k, v) :: rest else (k', v') :: updateAssoc rest k v

/-- `func NewContextManager(maxHistory int) *ContextManager`. -/
def NewContextManager (maxHistory : Nat) : ContextManager :=
  { conversations := [], maxHistory := maxHistory }

/-- `func (cm *ContextManager) GetConversationKey(roomID, userID) string`:
`string(roomID) + "|" + string(userID)`. -/
def GetConversationKey (roomID userID : String) : String :=
  roomID ++ "|" ++ userID

/-- `func (cm *ContextManager) AddMessage(roomID, userID, role, content)`:
lazily creates the conversation, appends the turn, then drops the oldest
turns when the length exceeds `maxHistory*2`. -/
def AddMessage (cm : ContextManager) (roomID userID role content : String) :
    ContextManager :=
  let key := GetConversationKey roomID userID
  let conv := (cm.conversations.lookup key).getD
    { messages := [], maxHistory := cm.maxHistory }
  let msgs := conv.messages ++ [{ role := role, content := content }]
  let msgs :=
    if msgs.length > cm.maxHistory * 2 then
      msgs.drop (msgs.length - cm.maxHistory * 2)
    else msgs
  { cm with conversations :=
      updateAssoc cm.conversations key { conv with messages := msgs } }

/-- `func (cm *ContextManager) GetConversationHistory(roomID, userID) string`:
newline-terminated `role: content` lines, `""` for an absent key. -/
def GetConversationHistory (cm : ContextManager) (roomID userID : String) :
    String :=
  let key := GetConversationKey roomID userID
  match cm.conversations.lookup key with
  | none => ""
  | some conv =>
    if conv.messages.length = 0 then ""
    else conv.messages.foldl (fun acc msg =>
      acc ++ msg.role ++ ": " ++ msg.content ++ "\n") ""

/-- `func (cm *ContextManager) ClearConversation(roomID, userID)`:
`delete(cm.conversations, key)`. -/
def ClearConversation (cm : ContextManager) (roomID userID : String) :
    ContextManager :=
  let key := GetConversationKey roomID userID
  { cm with conversations := cm.conversations.filter (fun p => p.1 ≠ key) }

/-- The message list stored for a (room, user) pair, `[]` if absent. -/
def histOf (cm : ContextManager) (roomID userID : String) : List Message :=
  ((cm.conversations.lookup (GetConversationKey roomID userID)).map
    Conversation.messages).getD []

/-- The bounded-append step `AddMessage` performs on the focused message
list: append one element, then keep only the last `cap` elements. -/
def pushBounded {α : Type} (cap : Nat) (l : List α) (x : α) : List α :=
  if (l ++ [x]).length > cap then (l ++ [x]).drop ((l ++ [x]).length - cap)
  else l ++ [x]

/-- One "exchange" of the router's success path: a `"user"` turn followed
by an `"assistant"` turn, both through `AddMessage`. -/
def runExchanges (cm : ContextManager) (roomID userID : String)
    (es : List (String × String)) : ContextManager :=
  es.foldl (fun cm p =>
    AddMessage (AddMessage cm roomID userID "user" p.1)
      roomID userID "assistant" p.2) cm

/-- The chronological turn list produced by a list of exchanges. -/
def exchangeTurns (es : List (String × String)) : List Message :=
  es.flatMap (fun p =>
    [{ role := "user", content := p.1 }, { role := "assistant", content := p.2 }])

/-! ### Context Store lemmas -/

theorem lookup_updateAssoc_self {α : Type} (l : List (String × α)) (k : String)
    (v : α) : (updateAssoc l k v).lookup k = some v := by
  induction l with
  | nil => simp [updateAssoc]
  | cons p rest ih =>
    obtain ⟨k', v'⟩ := p
    by_cases h : k' = k
    · simp [updateAssoc, h]
    · have hbeq : (k == k') = false := by
        simp only [beq_eq_false_iff_ne, ne_eq]
        exact fun hk => h hk.symm
      simp [updateAssoc, h, List.lookup, hbeq, ih]

theorem lookup_updateAssoc_other {α : Type} (l : List (String × α))
    (k k' : String) (v : α) (h : k' ≠ k) :
    (updateAssoc l k v).lookup k' = l.lookup k' := by
  have hbeq : (k' == k) = false := by
    simp only [beq_eq_false_iff_ne, ne_eq]
    exact h
  induction l with
  | nil => simp [updateAssoc, List.lookup, hbeq]
  | cons p rest ih =>
    obtain ⟨k₀, v₀⟩ := p
    by_cases hk : k₀ = k
    · subst hk
      simp [updateAssoc, List.lookup, hbeq]
    · simp only [updateAssoc, hk, if_false, List.lookup, ih]

theorem histOf_AddMessage (cm : ContextManager) (roomID userID role content :
    String) :
    histOf (AddMessage cm roomID userID role content) roomID userID =
      pushBounded (cm.maxHistory * 2) (histOf cm roomID userID)
        { role := role, content := content } := by
  unfold histOf AddMessage pushBounded
  cases h : cm.conversations.lookup (GetConversationKey roomID userID) with
  | none => simp [h, lookup_updateAssoc_self]
  | some conv => simp [h, lookup_updateAssoc_self]

theorem maxHistory_AddMessage (cm : ContextManager)
    (roomID userID role content : String) :
    (AddMessage cm roomID userID role content).maxHistory = cm.maxHistory := by
  rfl

/-- Sliding-window characterisation of folding `pushBounded` over a list. -/
theorem foldl_pushBounded {α : Type} (cap : Nat) (ts : List α) :
    ∀ acc : List α, acc.length ≤ cap →
      ts.foldl (pushBounded cap) acc =
        (acc ++ ts).drop (acc.length + ts.length - cap) := by
  induction ts with
  | nil =>
    intro acc hacc
    simp [Nat.sub_eq_zero_of_le, hacc]
  | cons x ts ih =>
    intro acc hacc
    rw [List.foldl_cons]
    by_cases hlen : acc.length + 1 ≤ cap
    · have hpush : pushBounded cap acc x = acc ++ [x] := by
        unfold pushBounded
        rw [if_neg]
        simp only [List.length_append, List.length_cons, List.length_nil]
        omega
      rw [hpush, ih (acc ++ [x]) (by simpa using hlen)]
      rw [List.append_assoc]
      simp only [List.length_append, List.length_cons, List.length_nil,
        List.singleton_append]
      congr 1
      omega
    · have hcap : acc.length = cap := by omega
      have hpush : pushBounded cap acc x = (acc ++ [x]).drop 1 := by
        unfold pushBounded
        rw [if_pos]
        · congr 1
          simp only [List.length_append, List.length_cons, List.length_nil]
          omega
        · simp only [List.length_append, List.length_cons, List.length_nil]
          omega
      have hlen' : ((acc ++ [x]).drop 1).length ≤ cap := by
        simp only [List.length_drop, List.length_append, List.length_cons,
          List.length_nil]
        omega
      rw [hpush, ih _ hlen']
      have h1 : (acc ++ [x]).drop 1 ++ ts = (acc ++ x :: ts).drop 1 := by
        rw [← List.drop_append_of_le_length (by simp)]
        simp [List.append_assoc]
      rw [h1, List.drop_drop]
      simp only [List.length_drop, List.length_append, List.length_cons,
        List.length_nil]
      congr 1
      omega

theorem maxHistory_runExchanges (roomID userID : String)
    (es : List (String × String)) :
    ∀ cm : ContextManager,
      (runExchanges cm roomID userID es).maxHistory = cm.maxHistory := by
  induction es with
  | nil => intro cm; rfl
  | cons e es ih =>
    intro cm
    show (runExchanges (AddMessage (AddMessage cm roomID userID "user" e.1)
      roomID userID "assistant" e.2) roomID userID es).maxHistory = _
    rw [ih, maxHistory_AddMessage, maxHistory_AddMessage]

/-- Running exchanges evolves the focused message list by folding
`pushBounded (maxHistory * 2)` over the chronological turn list. -/
theorem histOf_runExchanges_fold (roomID userID : String)
    (es : List (String × String)) :
    ∀ cm : ContextManager,
      histOf (runExchanges cm roomID userID es) roomID userID =
        (exchangeTurns es).foldl (pushBounded (cm.maxHistory * 2))
          (histOf cm roomID userID) := by
  induction es with
  | nil => intro cm; rfl
  | cons e es ih =>
    intro cm
    show histOf (runExchanges (AddMessage (AddMessage cm roomID userID "user" e.1)
      roomID userID "assistant" e.2) roomID userID es) roomID userID = _
    rw [ih, histOf_AddMessage, histOf_AddMessage,
      maxHistory_AddMessage, maxHistory_AddMessage]
    rfl

theorem exchangeTurns_length (es : List (String × String)) :
    (exchangeTurns es).length = 2 * es.length := by
  induction es with
  | nil => rfl
  | cons e es ih =>
    simp only [exchangeTurns, List.flatMap_cons] at ih ⊢
    simp only [List.length_append, List.length_cons, List.length_nil, ih]
    omega

theorem histOf_NewContextManager (m : Nat) (roomID userID : String) :
    histOf (NewContextManager m) roomID userID = [] := by
  rfl

/-- C1: for every conversation (room, user) pair, after `N` successful
exchanges (each appending one `"user"` turn then one `"assistant"` turn via
`AddMessage`), the stored message list has length `min (2*N) (2*maxHistory)`
and equals the most recent turns in chronological order (oldest-first FIFO
eviction): it is the suffix of the full turn list obtained by dropping the
`2*N - 2*maxHistory` oldest turns. -/
theorem addMessage_window_invariant (m : Nat) (roomID userID : String)
    (es : List (String × String)) :
    histOf (runExchanges (NewContextManager m) roomID userID es)
        roomID userID =
      (exchangeTurns es).drop (2 * es.length - 2 * m) ∧
    (histOf (runExchanges (NewContextManager m) roomID userID es)
        roomID userID).length = min (2 * es.length) (2 * m) := by
  have hfold := histOf_runExchanges_fold roomID userID es (NewContextManager m)
  rw [histOf_NewContextManager] at hfold
  have hwindow := foldl_pushBounded ((NewContextManager m).maxHistory * 2)
    (exchangeTurns es) [] (by simp)
  simp only [List.nil_append, List.length_nil, Nat.zero_add] at hwindow
  have hm : (NewContextManager m).maxHistory = m := rfl
  rw [hfold, hwindow, hm, exchangeTurns_length]
  constructor
  · congr 1
    omega
  · simp only [List.length_drop, exchangeTurns_length]
    omega

/-! ## Credit/Quota Store

Two generations exist in the repository: `src/credits.go` (package `main`,
used by `src/bot.go`; namespace `Legacy` below) and `src/core/credits.go`
(package `core`; namespace `Core` below). The record type and the pure
logic of `CanUseAPI` / `RecordUsage` / key handling are identical; they
differ in persistence: the legacy store saves synchronously inside
`RecordUsage`, the core store sets a `dirty` flag consumed by
`autoSaveLoop`. -/

/-- `type UserCredit struct` — identical declaration in both files.
`APIKey []byte` is `none` for Go's `nil` slice; ciphertext, nonce and
master-key bytes are modelled as `List Nat`. -/
structure UserCredit where
  userID : String
  tokenCount : Int
  apiKey : Option (List Nat)
  nonce : List Nat
  searchEnabled : Bool
deriving Repr, DecidableEq

/-- A freshly created record `&UserCredit{UserID: userIDStr}`; the other
fields take Go's zero values (`[24]byte` is all zeroes). -/
def UserCredit.init (userID : String) : UserCredit :=
  { userID := userID, tokenCount := 0, apiKey := none,
    nonce := List.replicate 24 0, searchEnabled := false }

/-- Observable side effects of the modelled operations, in order. -/
inductive Effect where
  /-- `b.sendReply(roomID, text)`. -/
  | sendReply (roomID text : String)
  /-- An invocation of `GenerateResponse(prompt, fullPrompt, …)` on a
  client whose `APIKey` field is `apiKey`. -/
  | providerTextCall (prompt fullPrompt apiKey : String) (useSearch : Bool)
  /-- An invocation of `GenerateVisionResponse` on a client whose
  `APIKey` field is `apiKey`. -/
  | providerVisionCall (prompt systemPrompt apiKey mimeType : String)
      (imageData : List Nat)
  /-- `saveToFile`: the credentials file is overwritten with a snapshot
  of the user map. -/
  | fileWrite (users : List (String × UserCredit))
  /-- A pass-through call to a stateless lookup module. -/
  | moduleCall (name : String) (args : List String)
deriving Repr, DecidableEq

/-- NaCl `secretbox.Seal` as an oracle:
message → nonce → master key → ciphertext. -/
abbrev SealFn : Type := String → List Nat → List Nat → List Nat

/-- NaCl `secretbox.Open` as an oracle:
ciphertext → nonce → master key → plaintext (or authentication failure). -/
abbrev OpenFn : Type := List Nat → List Nat → List Nat → Option String

namespace Legacy

/-- `type CreditManager struct` of `src/credits.go` (no `dirty` flag). -/
structure CreditManager where
  users : List (String × UserCredit)
  masterKey : List Nat
  globalLimit : Int
deriving Repr, DecidableEq

/-- `encryptAPIKey`: seals the key under the master key with a fresh
nonce. The nonce comes from `crypto/rand`; it is an explicit parameter
here (the `rand.Read` failure branch is unreachable in the model). -/
def encryptAPIKey (sealFn : SealFn) (freshNonce : List Nat)
    (cm : CreditManager) (apiKey : String) : List Nat × List Nat :=
  (sealFn apiKey freshNonce cm.masterKey, freshNonce)

/-- `decryptAPIKey`: opens the sealed box; authentication failure yields
the `"failed to decrypt API key"` error. -/
def decryptAPIKey (openFn : OpenFn) (cm : CreditManager)
    (encrypted nonce : List Nat) : Except String String :=
  match openFn encrypted nonce cm.masterKey with
  | some s => .ok s
  | none => .error "failed to decrypt API key"

/-- `func (cm *CreditManager) SetUserAPIKey(userID, apiKey) error`:
encrypts, stores ciphertext and nonce, persists synchronously. -/
def SetUserAPIKey (sealFn : SealFn) (freshNonce : List Nat)
    (cm : CreditManager) (userID apiKey : String) :
    CreditManager × List Effect :=
  let enc := encryptAPIKey sealFn freshNonce cm apiKey
  let user := (cm.users.lookup userID).getD (UserCredit.init userID)
  let users := updateAssoc cm.users userID
    { user with apiKey := some enc.1, nonce := enc.2 }
  ({ cm with users := users }, [Effect.fileWrite users])

/-- `func (cm *CreditManager) GetUserAPIKey(userID) (string, error)`. -/
def GetUserAPIKey (openFn : OpenFn) (cm : CreditManager) (userID : String) :
    Except String String :=
  match cm.users.lookup userID with
  | none => .error "no API key found for user"
  | some user =>
    match user.apiKey with
    | none => .error "no API key found for user"
    | some enc => decryptAPIKey openFn cm enc user.nonce

/-- `func (cm *CreditManager) CanUseAPI(userID) bool`. -/
def CanUseAPI (cm : CreditManager) (userID : String) : Bool :=
  match cm.users.lookup userID with
  | some user =>
    if user.apiKey.isSome then true
    else if user.tokenCount ≥ cm.globalLimit then false
    else true
  | none => true

/-- `func (cm *CreditManager) RecordUsage(userID, tokens)`: ensures the
record exists, increments the counter only when `APIKey == nil`, then
calls `saveToFile()` — a synchronous write of the credentials file. -/
def RecordUsage (cm : CreditManager) (userID : String) (tokens : Int) :
    CreditManager × List Effect :=
  let user := (cm.users.lookup userID).getD (UserCredit.init userID)
  let user := if user.apiKey.isNone then
      { user with tokenCount := user.tokenCount + tokens }
    else user
  let users := updateAssoc cm.users userID user
  ({ cm with users := users }, [Effect.fileWrite users])

/-- `func (cm *CreditManager) GetUserStats(userID) (int, bool)`. -/
def GetUserStats (cm : CreditManager) (userID : String) : Int × Bool :=
  match cm.users.lookup userID with
  | none => (0, false)
  | some user => (user.tokenCount, user.apiKey.isSome)

/-- `func (cm *CreditManager) SetSearchEnabled(userID, enabled)`. -/
def SetSearchEnabled (cm : CreditManager) (userID : String) (enabled : Bool) :
    CreditManager × List Effect :=
  let user := (cm.users.lookup userID).getD (UserCredit.init userID)
  let users := updateAssoc cm.users userID { user with searchEnabled := enabled }
  ({ cm with users := users }, [Effect.fileWrite users])

/-- `func (cm *CreditManager) IsSearchEnabled(userID) bool`. -/
def IsSearchEnabled (cm : CreditManager) (userID : String) : Bool :=
  match cm.users.lookup userID with
  | none => false
  | some user => user.searchEnabled

end Legacy

namespace Core

/-- `type CreditManager struct` of `src/core/credits.go`, with the
`dirty` flag consumed by `autoSaveLoop`. -/
structure CreditManager where
  users : List (String × UserCredit)
  masterKey : List Nat
  globalLimit : Int
  dirty : Bool
deriving Repr, DecidableEq

/-- `encryptAPIKey` of `src/core/credits.go` (same body as legacy). -/
def encryptAPIKey (sealFn : SealFn) (freshNonce : List Nat)
    (cm : CreditManager) (apiKey : String) : List Nat × List Nat :=
  (sealFn apiKey freshNonce cm.masterKey, freshNonce)

/-- `decryptAPIKey` of `src/core/credits.go` (same body as legacy). -/
def decryptAPIKey (openFn : OpenFn) (cm : CreditManager)
    (encrypted nonce : List Nat) : Except String String :=
  match openFn encrypted nonce cm.masterKey with
  | some s => .ok s
  | none => .error "failed to decrypt API key"

/-- `SetUserAPIKey` of `src/core/credits.go`: stores the sealed key and
persists synchronously via `saveToFile` (does not touch `dirty`). -/
def SetUserAPIKey (sealFn : SealFn) (freshNonce : List Nat)
    (cm : CreditManager) (userID apiKey : String) :
    CreditManager × List Effect :=
  let enc := encryptAPIKey sealFn freshNonce cm apiKey
  let user := (cm.users.lookup userID).getD (UserCredit.init userID)
  let users := updateAssoc cm.users userID
    { user with apiKey := some enc.1, nonce := enc.2 }
  ({ cm with users := users }, [Effect.fileWrite users])

/-- `GetUserAPIKey` of `src/core/credits.go`. -/
def GetUserAPIKey (openFn : OpenFn) (cm : CreditManager) (userID : String) :
    Except String String :=
  match cm.users.lookup userID with
  | none => .error "no API key found for user"
  | some user =>
    match user.apiKey with
    | none => .error "no API key found for user"
    | some enc => decryptAPIKey openFn cm enc user.nonce

/-- `CanUseAPI` of `src/core/credits.go` (same body as legacy). -/
def CanUseAPI (cm : CreditManager) (userID : String) : Bool :=
  match cm.users.lookup userID with
  | some user =>
    if user.apiKey.isSome then true
    else if user.tokenCount ≥ cm.globalLimit then false
    else true
  | none => true

/-- `RecordUsage` of `src/core/credits.go`: ensures the record exists,
increments the counter only when `APIKey == nil`, and sets `dirty := true`.
No file write happens in this call (empty effect list). -/
def RecordUsage (cm : CreditManager) (userID : String) (tokens : Int) :
    CreditManager × List Effect :=
  let user := (cm.users.lookup userID).getD (UserCredit.init userID)
  let user := if user.apiKey.isNone then
      { user with tokenCount := user.tokenCount + tokens }
    else user
  let users := updateAssoc cm.users userID user
  ({ cm with users := users, dirty := true }, [])

/-- One iteration of `autoSaveLoop`'s ticker body: write the file and
clear `dirty` only when `dirty` is set. -/
def autoSaveTick (cm : CreditManager) : CreditManager × List Effect :=
  if cm.dirty then ({ cm with dirty := false }, [Effect.fileWrite cm.users])
  else (cm, [])

/-- `ForceSave`: unconditional snapshot write (shutdown path). -/
def ForceSave (cm : CreditManager) : CreditManager × List Effect :=
  (cm, [Effect.fileWrite cm.users])

/-- `GetUserStats` of `src/core/credits.go`. -/
def GetUserStats (cm : CreditManager) (userID : String) : Int × Bool :=
  match cm.users.lookup userID with
  | none => (0, false)
  | some user => (user.tokenCount, user.apiKey.isSome)

/-- `SetSearchEnabled` of `src/core/credits.go`. -/
def SetSearchEnabled (cm : CreditManager) (userID : String) (enabled : Bool) :
    CreditManager × List Effect :=
  let user := (cm.users.lookup userID).getD (UserCredit.init userID)
  let users := updateAssoc cm.users userID { user with searchEnabled := enabled }
  ({ cm with users := users }, [Effect.fileWrite users])

/-- `IsSearchEnabled` of `src/core/credits.go`. -/
def IsSearchEnabled (cm : CreditManager) (userID : String) : Bool :=
  match cm.users.lookup userID with
  | none => false
  | some user => user.searchEnabled

end Core

/-! ### Credit Store lemmas and claims -/

/-- Folding a list of `RecordUsage` calls (core store). -/
def Core.runRecordUsage (cm : Core.CreditManager)
    (calls : List (String × Int)) : Core.CreditManager :=
  calls.foldl (fun c p => (Core.RecordUsage c p.1 p.2).1) cm

/-- Folding a list of `RecordUsage` calls (legacy store). -/
def Legacy.runRecordUsage (cm : Legacy.CreditManager)
    (calls : List (String × Int)) : Legacy.CreditManager :=
  calls.foldl (fun c p => (Legacy.RecordUsage c p.1 p.2).1) cm

theorem Core.coreRecordUsage_lookup_keyed (cm : Core.CreditManager)
    (w u : String) (t : Int) (r : UserCredit)
    (hr : cm.users.lookup u = some r) (hk : r.apiKey.isSome) :
    (Core.RecordUsage cm w t).1.users.lookup u = some r := by
  unfold Core.RecordUsage
  by_cases hw : u = w
  · subst hw
    simp only [hr, Option.getD_some]
    have hnone : r.apiKey.isNone = false := by
      cases hak : r.apiKey with
      | none => rw [hak] at hk; simp at hk
      | some v => simp [Option.isNone]
    simp only [hnone, Bool.false_eq_true, if_false]
    rw [lookup_updateAssoc_self]
  · simp only
    rw [lookup_updateAssoc_other _ _ _ _ hw, hr]

theorem Legacy.legacyRecordUsage_lookup_keyed (cm : Legacy.CreditManager)
    (w u : String) (t : Int) (r : UserCredit)
    (hr : cm.users.lookup u = some r) (hk : r.apiKey.isSome) :
    (Legacy.RecordUsage cm w t).1.users.lookup u = some r := by
  unfold Legacy.RecordUsage
  by_cases hw : u = w
  · subst hw
    simp only [hr, Option.getD_some]
    have hnone : r.apiKey.isNone = false := by
      cases hak : r.apiKey with
      | none => rw [hak] at hk; simp at hk
      | some v => simp [Option.isNone]
    simp only [hnone, Bool.false_eq_true, if_false]
    rw [lookup_updateAssoc_self]
  · simp only
    rw [lookup_updateAssoc_other _ _ _ _ hw, hr]

theorem Core.coreRunRecordUsage_lookup_keyed (calls : List (String × Int)) :
    ∀ (cm : Core.CreditManager) (u : String) (r : UserCredit),
      cm.users.lookup u = some r → r.apiKey.isSome →
      (Core.runRecordUsage cm calls).users.lookup u = some r := by
  induction calls with
  | nil => intro cm u r hr _; exact hr
  | cons c calls ih =>
    intro cm u r hr hk
    exact ih _ u r (Core.coreRecordUsage_lookup_keyed cm c.1 u c.2 r hr hk) hk

theorem Legacy.legacyRunRecordUsage_lookup_keyed (calls : List (String × Int)) :
    ∀ (cm : Legacy.CreditManager) (u : String) (r : UserCredit),
      cm.users.lookup u = some r → r.apiKey.isSome →
      (Legacy.runRecordUsage cm calls).users.lookup u = some r := by
  induction calls with
  | nil => intro cm u r hr _; exact hr
  | cons c calls ih =>
    intro cm u r hr hk
    exact ih _ u r (Legacy.legacyRecordUsage_lookup_keyed cm c.1 u c.2 r hr hk) hk

theorem Core.coreRecordUsage_lookup_keyless (cm : Core.CreditManager)
    (u : String) (t : Int) (r : UserCredit)
    (hr : cm.users.lookup u = some r) (hk : r.apiKey = none) :
    (Core.RecordUsage cm u t).1.users.lookup u =
      some { r with tokenCount := r.tokenCount + t } := by
  unfold Core.RecordUsage
  simp only [hr, Option.getD_some, hk, Option.isNone_none, if_true]
  rw [lookup_updateAssoc_self]

theorem Legacy.legacyRecordUsage_lookup_keyless (cm : Legacy.CreditManager)
    (u : String) (t : Int) (r : UserCredit)
    (hr : cm.users.lookup u = some r) (hk : r.apiKey = none) :
    (Legacy.RecordUsage cm u t).1.users.lookup u =
      some { r with tokenCount := r.tokenCount + t } := by
  unfold Legacy.RecordUsage
  simp only [hr, Option.getD_some, hk, Option.isNone_none, if_true]
  rw [lookup_updateAssoc_self]

/-- C2: `CanUseAPI` is `true` when a personal key is stored; for a
keyless record it is `false` exactly when the cumulative token count has
reached the configured global limit; a user with no record at all is
allowed. Stated for both store generations (`src/credits.go` and
`src/core/credits.go`, whose bodies are identical). -/
theorem canUseAPI_quota_gate (lcm : Legacy.CreditManager)
    (ccm : Core.CreditManager) (u : String) :
    ((lcm.users.lookup u = none → Legacy.CanUseAPI lcm u = true) ∧
     (∀ r, lcm.users.lookup u = some r → r.apiKey.isSome →
        Legacy.CanUseAPI lcm u = true) ∧
     (∀ r, lcm.users.lookup u = some r → r.apiKey = none →
        (Legacy.CanUseAPI lcm u = false ↔ lcm.globalLimit ≤ r.tokenCount))) ∧
    ((ccm.users.lookup u = none → Core.CanUseAPI ccm u = true) ∧
     (∀ r, ccm.users.lookup u = some r → r.apiKey.isSome →
        Core.CanUseAPI ccm u = true) ∧
     (∀ r, ccm.users.lookup u = some r → r.apiKey = none →
        (Core.CanUseAPI ccm u = false ↔ ccm.globalLimit ≤ r.tokenCount))) := by
  refine ⟨⟨?_, ?_, ?_⟩, ⟨?_, ?_, ?_⟩⟩
  · intro h; unfold Legacy.CanUseAPI; rw [h]
  · intro r hr hk; unfold Legacy.CanUseAPI; rw [hr]; simp [hk]
  · intro r hr hk
    unfold Legacy.CanUseAPI
    rw [hr]
    simp only [hk, Option.isSome_none, Bool.false_eq_true, if_false]
    constructor
    · intro h
      by_contra hlt
      rw [if_neg (by omega)] at h
      exact Bool.true_eq_false.mp h
    · intro h
      rw [if_pos (by omega)]
  · intro h; unfold Core.CanUseAPI; rw [h]
  · intro r hr hk; unfold Core.CanUseAPI; rw [hr]; simp [hk]
  · intro r hr hk
    unfold Core.CanUseAPI
    rw [hr]
    simp only [hk, Option.isSome_none, Bool.false_eq_true, if_false]
    constructor
    · intro h
      by_contra hlt
      rw [if_neg (by omega)] at h
      exact Bool.true_eq_false.mp h
    · intro h
      rw [if_pos (by omega)]

/-- Witness for `canUseAPI_quota_gate`: a keyless user at
`tokenCount = limit` is denied, one at `limit - 1` is allowed, an unseen
user is allowed. -/
theorem canUseAPI_quota_gate_witness :
    (Legacy.CanUseAPI { users := [("a", { userID := "a", tokenCount := 100, apiKey := none, nonce := [], searchEnabled := false })], masterKey := [], globalLimit := 100 } "a" = false) ∧
    (Legacy.CanUseAPI { users := [("b", { userID := "b", tokenCount := 99, apiKey := none, nonce := [], searchEnabled := false })], masterKey := [], globalLimit := 100 } "b" = true) ∧
    (Core.CanUseAPI { users := [], masterKey := [], globalLimit := 0, dirty := false } "ghost" = true) := by
  refine ⟨?_, ?_, ?_⟩
  · exact ((canUseAPI_quota_gate
      { users := [("a", { userID := "a", tokenCount := 100, apiKey := none, nonce := [], searchEnabled := false })], masterKey := [], globalLimit := 100 }
      { users := [], masterKey := [], globalLimit := 0, dirty := false }
      "a").1.2.2
      { userID := "a", tokenCount := 100, apiKey := none, nonce := [], searchEnabled := false }
      (by decide) rfl).mpr (by decide)
  · have h := (canUseAPI_quota_gate
      { users := [("b", { userID := "b", tokenCount := 99, apiKey := none, nonce := [], searchEnabled := false })], masterKey := [], globalLimit := 100 }
      { users := [], masterKey := [], globalLimit := 0, dirty := false }
      "b").1.2.2
      { userID := "b", tokenCount := 99, apiKey := none, nonce := [], searchEnabled := false }
      (by decide) rfl
    cases hb : Legacy.CanUseAPI
      { users := [("b", { userID := "b", tokenCount := 99, apiKey := none, nonce := [], searchEnabled := false })], masterKey := [], globalLimit := 100 } "b"
    · exact absurd (h.mp hb) (by decide)
    · rfl
  · exact (canUseAPI_quota_gate
      { users := [], masterKey := [], globalLimit := 0 }
      { users := [], masterKey := [], globalLimit := 0, dirty := false }
      "ghost").2.1 rfl

/-- C3: for every user whose record holds a personal API key, any
sequence of `RecordUsage` calls (any users, any token values) leaves that
user's record — in particular the cumulative token counter — unchanged;
a single call on a keyless record increments the counter by `tokens`.
Stated for both store generations. -/
theorem recordUsage_personal_key_frame (lcm : Legacy.CreditManager)
    (ccm : Core.CreditManager) (calls : List (String × Int)) (u : String)
    (r : UserCredit) :
    (lcm.users.lookup u = some r → r.apiKey.isSome →
      (Legacy.runRecordUsage lcm calls).users.lookup u = some r) ∧
    (ccm.users.lookup u = some r → r.apiKey.isSome →
      (Core.runRecordUsage ccm calls).users.lookup u = some r) ∧
    (∀ t, lcm.users.lookup u = some r → r.apiKey = none →
      (Legacy.RecordUsage lcm u t).1.users.lookup u =
        some { r with tokenCount := r.tokenCount + t }) ∧
    (∀ t, ccm.users.lookup u = some r → r.apiKey = none →
      (Core.RecordUsage ccm u t).1.users.lookup u =
        some { r with tokenCount := r.tokenCount + t }) := by
  refine ⟨?_, ?_, ?_, ?_⟩
  · intro hr hk
    exact Legacy.legacyRunRecordUsage_lookup_keyed calls lcm u r hr hk
  · intro hr hk
    exact Core.coreRunRecordUsage_lookup_keyed calls ccm u r hr hk
  · intro t hr hk
    exact Legacy.legacyRecordUsage_lookup_keyless lcm u t r hr hk
  · intro t hr hk
    exact Core.coreRecordUsage_lookup_keyless ccm u t r hr hk

/-- Witness for `recordUsage_personal_key_frame`: a keyed user's counter
survives three recordings (including ones addressed to them), and a
keyless user's counter is incremented. -/
theorem recordUsage_personal_key_frame_witness :
    ((Legacy.runRecordUsage { users := [("k", { userID := "k", tokenCount := 7, apiKey := some [1, 2], nonce := [], searchEnabled := false })], masterKey := [], globalLimit := 100 } [("k", 50), ("other", 3), ("k", 1000)]).users.lookup "k" =
      some { userID := "k", tokenCount := 7, apiKey := some [1, 2], nonce := [], searchEnabled := false }) ∧
    ((Core.RecordUsage { users := [("n", { userID := "n", tokenCount := 7, apiKey := none, nonce := [], searchEnabled := false })], masterKey := [], globalLimit := 100, dirty := false } "n" 5).1.users.lookup "n" =
      some { userID := "n", tokenCount := 12, apiKey := none, nonce := [], searchEnabled := false }) := by
  constructor
  · exact (recordUsage_personal_key_frame
      { users := [("k", { userID := "k", tokenCount := 7, apiKey := some [1, 2], nonce := [], searchEnabled := false })], masterKey := [], globalLimit := 100 }
      { users := [], masterKey := [], globalLimit := 0, dirty := false }
      [("k", 50), ("other", 3), ("k", 1000)] "k"
      { userID := "k", tokenCount := 7, apiKey := some [1, 2], nonce := [], searchEnabled := false }).1
      (by decide) rfl
  · have h := (recordUsage_personal_key_frame
      { users := [], masterKey := [], globalLimit := 0 }
      { users := [("n", { userID := "n", tokenCount := 7, apiKey := none, nonce := [], searchEnabled := false })], masterKey := [], globalLimit := 100, dirty := false }
      [] "n"
      { userID := "n", tokenCount := 7, apiKey := none, nonce := [], searchEnabled := false }).2.2.2
      5 (by decide) rfl
    simpa using h

/-- C6: storing a key with `SetUserAPIKey` (sealed-box encryption under
the master key with a fresh nonce) and reading it back with
`GetUserAPIKey` returns exactly the key, for any non-empty key string,
provided the seal/open pair satisfies the NaCl secretbox round-trip
contract. Stated for both store generations. -/
theorem setkey_getkey_roundtrip (sealFn : SealFn) (openFn : OpenFn)
    (hbox : ∀ m n k, openFn (sealFn m n k) n k = some m)
    (lcm : Legacy.CreditManager) (ccm : Core.CreditManager)
    (freshNonce : List Nat) (u key : String) (_hkey : key ≠ "") :
    Legacy.GetUserAPIKey openFn
        (Legacy.SetUserAPIKey sealFn freshNonce lcm u key).1 u = .ok key ∧
    Core.GetUserAPIKey openFn
        (Core.SetUserAPIKey sealFn freshNonce ccm u key).1 u = .ok key := by
  constructor
  · unfold Legacy.GetUserAPIKey Legacy.SetUserAPIKey Legacy.encryptAPIKey
      Legacy.decryptAPIKey
    simp only [lookup_updateAssoc_self]
    rw [hbox]
  · unfold Core.GetUserAPIKey Core.SetUserAPIKey Core.encryptAPIKey
      Core.decryptAPIKey
    simp only [lookup_updateAssoc_self]
    rw [hbox]

/-- Witness for `setkey_getkey_roundtrip`, instantiated with a concrete
seal/open pair satisfying the secretbox contract (byte-code encoding of
the plaintext, ignoring nonce and key). -/
theorem setkey_getkey_roundtrip_witness :
    Legacy.GetUserAPIKey (fun c _ _ => some (String.mk (c.map Char.ofNat)))
        (Legacy.SetUserAPIKey (fun m _ _ => m.data.map Char.toNat)
          (List.replicate 24 1)
          { users := [], masterKey := List.replicate 32 7, globalLimit := 100 }
          "user" "sk-секрет✓").1 "user" = .ok "sk-секрет✓" := by
  refine (setkey_getkey_roundtrip
    (fun m _ _ => m.data.map Char.toNat)
    (fun c _ _ => some (String.mk (c.map Char.ofNat)))
    ?_
    { users := [], masterKey := List.replicate 32 7, globalLimit := 100 }
    { users := [], masterKey := [], globalLimit := 0, dirty := false }
    (List.replicate 24 1) "user" "sk-секрет✓" (by decide)).1
  intro m n k
  simp only [List.map_map]
  congr 1
  have : ∀ cs : List Char, cs.map (fun c => Char.ofNat (Char.toNat c)) = cs := by
    intro cs
    induction cs with
    | nil => rfl
    | cons c cs ih => simp [Char.ofNat_toNat, ih]
  calc String.mk (m.data.map (Char.ofNat ∘ Char.toNat))
      = String.mk m.data := by
        rw [show m.data.map (Char.ofNat ∘ Char.toNat)
            = m.data.map (fun c => Char.ofNat (Char.toNat c)) from rfl, this]
    _ = m := rfl

/-- C7 (amended): in the core store (`src/core/credits.go`),
`RecordUsage` performs no synchronous disk write — it updates the
in-memory map and sets the `dirty` flag — and the periodic
`autoSaveLoop` tick writes the file only when `dirty` is set (clearing
it). The legacy store (`src/credits.go`) instead saves synchronously on
every `RecordUsage` call (see `legacy_recordUsage_syncwrite`). -/
theorem core_recordUsage_deferred_persistence (cm : Core.CreditManager)
    (u : String) (t : Int) (c : Core.CreditManager) :
    (Core.RecordUsage cm u t).2 = [] ∧
    (Core.RecordUsage cm u t).1.dirty = true ∧
    (c.dirty = false → Core.autoSaveTick c = (c, [])) ∧
    (c.dirty = true →
      Core.autoSaveTick c = ({ c with dirty := false },
        [Effect.fileWrite c.users])) := by
  refine ⟨rfl, rfl, ?_, ?_⟩
  · intro h
    unfold Core.autoSaveTick
    rw [h]
    rfl
  · intro h
    unfold Core.autoSaveTick
    rw [h]
    rfl

/-- Witness for `core_recordUsage_deferred_persistence` at a concrete
store, with both dirty-flag cases of the flush tick. -/
theorem core_recordUsage_deferred_persistence_witness :
    ((Core.RecordUsage { users := [], masterKey := [], globalLimit := 10, dirty := false } "u" 4).2 = [] ∧
     (Core.RecordUsage { users := [], masterKey := [], globalLimit := 10, dirty := false } "u" 4).1.dirty = true) ∧
    Core.autoSaveTick { users := [], masterKey := [], globalLimit := 10, dirty := false } =
      ({ users := [], masterKey := [], globalLimit := 10, dirty := false }, []) ∧
    Core.autoSaveTick { users := [], masterKey := [], globalLimit := 10, dirty := true } =
      ({ users := [], masterKey := [], globalLimit := 10, dirty := false }, [Effect.fileWrite []]) := by
  have h₁ := core_recordUsage_deferred_persistence
    { users := [], masterKey := [], globalLimit := 10, dirty := false } "u" 4
    { users := [], masterKey := [], globalLimit := 10, dirty := false }
  have h₂ := core_recordUsage_deferred_persistence
    { users := [], masterKey := [], globalLimit := 10, dirty := false } "u" 4
    { users := [], masterKey := [], globalLimit := 10, dirty := true }
  exact ⟨⟨h₁.1, h₁.2.1⟩, h₁.2.2.1 rfl, h₂.2.2.2 rfl⟩

/-- C7 counterexample: the legacy `RecordUsage` of `src/credits.go`
(cited by the claim) calls `saveToFile()` synchronously — the call itself
emits a credentials-file write, so "the on-disk credential file is
unchanged by the RecordUsage call itself" fails on this implementation. -/
theorem legacy_recordUsage_syncwrite :
    (Legacy.RecordUsage { users := [], masterKey := [], globalLimit := 100 } "alice" 5).2 =
      [Effect.fileWrite [("alice", { userID := "alice", tokenCount := 5, apiKey := none, nonce := List.replicate 24 0, searchEnabled := false })]] := by
  decide

/-! ## Gemini backends: response processing and token accounting

The request building and HTTP transport are external; the functions
below are the response-processing tails of `GenerateResponse` /
`GenerateVisionResponse` (`src/gemini.go`) and `generateInternal`
(`src/core/llm/gemini.go`), applied to the decoded vendor response. -/

/-- Go `len` on a string: its UTF-8 byte length. -/
def goLen (s : String) : Nat :=
  s.utf8ByteSize

/-- `type UsageMetadata struct` of `src/gemini.go`. -/
structure UsageMetadata where
  promptTokenCount : Int
  totalTokenCount : Int
deriving Repr, DecidableEq

/-- `type Candidate struct`: the part texts and the finish reason. -/
structure Candidate where
  parts : List String
  finishReason : String
deriving Repr, DecidableEq

/-- `type GeminiResponse struct` of `src/gemini.go`; the
`*UsageMetadata` pointer is `none` when the vendor omits the field. -/
structure GeminiResponse where
  candidates : List Candidate
  usageMetadata : Option UsageMetadata
deriving Repr, DecidableEq

/-- `func (g *GeminiClient) GenerateResponse(prompt, systemPrompt, …)`
of `src/gemini.go`: candidate checks, safety-block detection, and token
count (vendor total when metadata is present, `len(fullPrompt)/4`
otherwise, where `fullPrompt = systemPrompt + "\n\n" + prompt`). -/
def GenerateResponse (resp : GeminiResponse) (prompt systemPrompt : String) :
    Except String (String × Int) :=
  let fullPrompt := systemPrompt ++ "\n\n" ++ prompt
  match resp.candidates with
  | [] => .error "no response candidates from Gemini"
  | candidate :: _ =>
    match candidate.parts with
    | [] =>
      if candidate.finishReason ≠ "" then
        .error ("Gemini blocked response. Reason: " ++ candidate.finishReason)
      else .error "Gemini returned an empty response"
    | part :: _ =>
      let tokenCount : Int :=
        match resp.usageMetadata with
        | some u => u.totalTokenCount
        | none => ((goLen fullPrompt : Nat) / 4 : Nat)
      .ok (part, tokenCount)

/-- `func (g *GeminiClient) GenerateVisionResponse(prompt, systemPrompt,
imageData, mimeType)` of `src/gemini.go`: same shape, but the estimate
divides `len(prompt)` — the user prompt alone, not the full prompt. -/
def GenerateVisionResponse (resp : GeminiResponse)
    (prompt _systemPrompt : String) : Except String (String × Int) :=
  match resp.candidates with
  | [] => .error "no response candidates from Gemini vision"
  | candidate :: _ =>
    match candidate.parts with
    | [] =>
      if candidate.finishReason ≠ "" then
        .error ("Gemini blocked vision response. Reason: " ++
          candidate.finishReason)
      else .error "Gemini returned an empty vision response"
    | part :: _ =>
      let tokenCount : Int :=
        match resp.usageMetadata with
        | some u => u.totalTokenCount
        | none => ((goLen prompt : Nat) / 4 : Nat)
      .ok (part, tokenCount)

namespace Llm

/-- `type RequestConfig struct` of `src/core/llm/provider.go`.
`Temperature float32` is omitted: floating point plays no role in any
verified property. -/
structure RequestConfig where
  maxTokens : Int
  systemPrompt : String
  useSearch : Bool
  userKeyOverride : String
deriving Repr, DecidableEq

/-- `src/core/llm/gemini.go` decodes `usageMetadata` into a plain struct,
so an omitted field arrives as the zero value `TotalTokenCount = 0`. -/
structure GeminiResponse where
  candidates : List Candidate
  totalTokenCount : Int
deriving Repr, DecidableEq

/-- `type GeminiProvider struct` of `src/core/llm/gemini.go`. -/
structure GeminiProvider where
  apiKey : String
  baseURL : String
  model : String
deriving Repr, DecidableEq

/-- `func (g *GeminiProvider) generateInternal(prompt, imageData,
mimeType, cfg)` of `src/core/llm/gemini.go`, response-processing tail:
per-call key override, safety-block detection, and token count (vendor
total when positive, `len(fullPrompt)/4` otherwise). The chosen API key
is returned alongside so the override is observable. -/
def generateInternal (g : GeminiProvider) (resp : GeminiResponse)
    (prompt : String) (cfg : RequestConfig) :
    Except String (String × Int × String) :=
  let apiKey := if cfg.userKeyOverride ≠ "" then cfg.userKeyOverride else g.apiKey
  let fullPrompt := cfg.systemPrompt ++ "\n\n" ++ prompt
  match resp.candidates with
  | [] => .error "no response candidates"
  | candidate :: _ =>
    match candidate.parts with
    | [] =>
      if candidate.finishReason ≠ "" then
        .error ("blocked by safety settings (" ++ candidate.finishReason ++ ")")
      else .error "empty response from model"
    | part :: _ =>
      let tokens : Int :=
        if resp.totalTokenCount > 0 then resp.totalTokenCount
        else ((goLen fullPrompt : Nat) / 4 : Nat)
      .ok (part, tokens, apiKey)

end Llm

/-- C9 counterexample: with usage metadata absent, text generation
returns `len(systemPrompt + "\n\n" + prompt)/4`, not the prompt's
character length divided by 4: for prompt `"123456"` (length 6, so the
claimed estimate is 1) and system prompt `"abcdef"` the returned count
is 14/4 = 3. -/
theorem token_estimate_not_prompt_div4 :
    GenerateResponse { candidates := [{ parts := ["ok"], finishReason := "" }], usageMetadata := none } "123456" "abcdef" = .ok ("ok", 3) ∧
    ((goLen "123456" / 4 : Nat) : Int) = 1 := by
  exact ⟨rfl, rfl⟩

/-- C9 (amended): when the vendor omits usage metadata, the legacy text
path returns the UTF-8 byte length of the full prompt
(`systemPrompt + "\n\n" + prompt`) divided by 4, while the legacy vision
path divides the byte length of the user prompt alone; the core backend
divides the full prompt's byte length and treats metadata as present
exactly when the reported total is positive. When metadata is present,
the vendor-reported total token count is returned. -/
theorem token_count_estimate_spec (prompt systemPrompt text : String)
    (tok : Int) :
    (∀ resp : GeminiResponse, resp.usageMetadata = none →
      GenerateResponse resp prompt systemPrompt = .ok (text, tok) →
      tok = ((goLen (systemPrompt ++ "\n\n" ++ prompt) / 4 : Nat) : Int)) ∧
    (∀ resp : GeminiResponse, resp.usageMetadata = none →
      GenerateVisionResponse resp prompt systemPrompt = .ok (text, tok) →
      tok = ((goLen prompt / 4 : Nat) : Int)) ∧
    (∀ (resp : GeminiResponse) (u : UsageMetadata),
      resp.usageMetadata = some u →
      (GenerateResponse resp prompt systemPrompt = .ok (text, tok) ∨
       GenerateVisionResponse resp prompt systemPrompt = .ok (text, tok)) →
      tok = u.totalTokenCount) ∧
    (∀ (g : Llm.GeminiProvider) (cfg : Llm.RequestConfig)
       (lresp : Llm.GeminiResponse) (key : String),
      Llm.generateInternal g lresp prompt cfg = .ok (text, tok, key) →
      tok = if lresp.totalTokenCount > 0 then lresp.totalTokenCount
        else ((goLen (cfg.systemPrompt ++ "\n\n" ++ prompt) / 4 : Nat) : Int)) := by
  refine ⟨?_, ?_, ?_, ?_⟩
  · intro resp hmeta hok
    cases hc : resp.candidates with
    | nil => simp [GenerateResponse, hc] at hok
    | cons c cs =>
      cases hp : c.parts with
      | nil =>
        simp only [GenerateResponse, hc, hp] at hok
        split at hok <;> simp at hok
      | cons p ps =>
        simp only [GenerateResponse, hc, hp, hmeta, Except.ok.injEq,
          Prod.mk.injEq] at hok
        exact hok.2.symm
  · intro resp hmeta hok
    cases hc : resp.candidates with
    | nil => simp [GenerateVisionResponse, hc] at hok
    | cons c cs =>
      cases hp : c.parts with
      | nil =>
        simp only [GenerateVisionResponse, hc, hp] at hok
        split at hok <;> simp at hok
      | cons p ps =>
        simp only [GenerateVisionResponse, hc, hp, hmeta, Except.ok.injEq,
          Prod.mk.injEq] at hok
        exact hok.2.symm
  · intro resp u hmeta hok
    rcases hok with hok | hok
    · cases hc : resp.candidates with
      | nil => simp [GenerateResponse, hc] at hok
      | cons c cs =>
        cases hp : c.parts with
        | nil =>
          simp only [GenerateResponse, hc, hp] at hok
          split at hok <;> simp at hok
        | cons p ps =>
          simp only [GenerateResponse, hc, hp, hmeta, Except.ok.injEq,
            Prod.mk.injEq] at hok
          exact hok.2.symm
    · cases hc : resp.candidates with
      | nil => simp [GenerateVisionResponse, hc] at hok
      | cons c cs =>
        cases hp : c.parts with
        | nil =>
          simp only [GenerateVisionResponse, hc, hp] at hok
          split at hok <;> simp at hok
        | cons p ps =>
          simp only [GenerateVisionResponse, hc, hp, hmeta, Except.ok.injEq,
            Prod.mk.injEq] at hok
          exact hok.2.symm
  · intro g cfg lresp key hok
    cases hc : lresp.candidates with
    | nil => simp [Llm.generateInternal, hc] at hok
    | cons c cs =>
      cases hp : c.parts with
      | nil =>
        simp only [Llm.generateInternal, hc, hp] at hok
        split at hok <;> simp at hok
      | cons p ps =>
        simp only [Llm.generateInternal, hc, hp, Except.ok.injEq,
          Prod.mk.injEq] at hok
        exact hok.2.1.symm

/-- Witness for `token_count_estimate_spec`: the three estimates at
concrete responses, and the metadata-present case. -/
theorem token_count_estimate_spec_witness :
    ((3 : Int) = ((goLen ("abcdef" ++ "\n\n" ++ "123456") / 4 : Nat) : Int)) ∧
    ((1 : Int) = ((goLen "123456" / 4 : Nat) : Int)) ∧
    ((42 : Int) = ({ promptTokenCount := 10, totalTokenCount := 42 : UsageMetadata }).totalTokenCount) ∧
    ((9 : Int) = if (9 : Int) > 0 then (9 : Int) else ((goLen ("abcdef" ++ "\n\n" ++ "123456") / 4 : Nat) : Int)) := by
  refine ⟨?_, ?_, ?_, ?_⟩
  · exact (token_count_estimate_spec "123456" "abcdef" "ok" 3).1
      { candidates := [{ parts := ["ok"], finishReason := "" }], usageMetadata := none }
      rfl rfl
  · exact (token_count_estimate_spec "123456" "abcdef" "ok" 1).2.1
      { candidates := [{ parts := ["ok"], finishReason := "" }], usageMetadata := none }
      rfl rfl
  · exact (token_count_estimate_spec "123456" "abcdef" "ok" 42).2.2.1
      { candidates := [{ parts := ["ok"], finishReason := "" }], usageMetadata := some { promptTokenCount := 10, totalTokenCount := 42 } }
      { promptTokenCount := 10, totalTokenCount := 42 }
      rfl (Or.inl rfl)
  · exact (token_count_estimate_spec "123456" "abcdef" "ok" 9).2.2.2
      { apiKey := "shared", baseURL := "", model := "m" }
      { maxTokens := 100, systemPrompt := "abcdef", useSearch := false, userKeyOverride := "" }
      { candidates := [{ parts := ["ok"], finishReason := "" }], totalTokenCount := 9 }
      "shared" rfl

/-! ## Message Router (`src/bot.go`)

`src/bot.go` is package `main` and uses the legacy credit store and the
context manager above. The Matrix SDK (event sync, media download and
decryption, reply-target fetching) and the provider HTTP calls are
external collaborators, passed in as an `Env` of oracles; each handler
returns the new bot state and the ordered list of observable effects. -/

/-- Go `strings.ToLower`. Implemented over the character list (the
core-library `String.toLower` has identical ASCII semantics but does not
reduce in the kernel). -/
def goToLower (s : String) : String :=
  String.mk (s.data.map Char.toLower)

/-- Go `strings.Contains` (substring containment). -/
def strContains (s sub : String) : Bool :=
  decide (sub.data <:+: s.data)

/-- Go `strings.HasPrefix`. -/
def goHasPrefix (s pre : String) : Bool :=
  pre.data.isPrefixOf s.data

/-- Go `strings.TrimSpace`: strip leading and trailing whitespace. -/
def goTrimSpace (s : String) : String :=
  String.mk (((s.data.dropWhile Char.isWhitespace).reverse.dropWhile
    Char.isWhitespace).reverse)

/-- Left-to-right non-overlapping replacement on character lists, with a
structural fuel argument (the list length bounds the number of steps, so
the fuel never runs out when initialised with it). -/
def replaceFuel (pat rep : List Char) : Nat → List Char → List Char
  | _, [] => []
  | 0, l => l
  | Nat.succ fuel, c :: rest =>
    if !pat.isEmpty && pat.isPrefixOf (c :: rest) then
      rep ++ replaceFuel pat rep fuel ((c :: rest).drop pat.length)
    else
      c :: replaceFuel pat rep fuel rest

/-- Go `strings.ReplaceAll`. (For the empty pattern Go interleaves the
replacement between runes; the router only ever replaces with `""`,
where both behaviours return the string unchanged.) -/
def goReplaceAll (s pat rep : String) : String :=
  String.mk (replaceFuel pat.data rep.data s.data.length s.data)

/-- Accumulator loop for `goFields`. -/
def fieldsAux : List Char → List Char → List String
  | [], acc => if acc.isEmpty then [] else [String.mk acc.reverse]
  | c :: rest, acc =>
    if c.isWhitespace then
      if acc.isEmpty then fieldsAux rest []
      else String.mk acc.reverse :: fieldsAux rest []
    else fieldsAux rest (c :: acc)

/-- Go `strings.Fields`: split around runs of whitespace, no empties. -/
def goFields (s : String) : List String :=
  fieldsAux s.data []

/-- `type BotConfig struct` (`src/config.go`), the fields the router
reads. `Temperature float32` is omitted: floating point plays no role in
any verified property. -/
structure BotConfig where
  name : String
  systemPrompt : String
  maxResponseTokens : Int
  maxConversationHistory : Nat
deriving Repr, DecidableEq

/-- `type Bot struct`: the Matrix client is reduced to its own user id;
`Gemini` to the shared service API key (the only field the router
overrides per call). Named `Bot'` because the root name `Bot` is taken
by Mathlib's order class. -/
structure Bot' where
  clientUserID : String
  geminiAPIKey : String
  config : BotConfig
  userCredits : Legacy.CreditManager
  contextMgr : ContextManager
deriving Repr, DecidableEq

/-- Matrix `event.MsgType`, reduced to the cases the router tests. -/
inductive MsgType where
  | text
  | image
  | other
deriving Repr, DecidableEq

/-- `event.MessageEventContent`, the fields the router reads.
`hasReplyTo` is `msg.RelatesTo != nil && msg.RelatesTo.InReplyTo != nil`;
`mimeInfo` is `some m` when `msg.GetInfo() != nil && info.MimeType != ""`. -/
structure MessageEventContent where
  msgType : MsgType
  body : String
  hasReplyTo : Bool
  mimeInfo : Option String
deriving Repr, DecidableEq

/-- `event.Event`, the fields `handleMessage` reads; `content = none`
models a body that fails the `*event.MessageEventContent` type
assertion. Timestamps are Unix milliseconds. -/
structure Event where
  sender : String
  roomID : String
  timestamp : Int
  content : Option MessageEventContent
deriving Repr, DecidableEq

/-- Outcome of the media download/decrypt sequence of
`handleImageMessage` (File and URL branches): the image bytes, or the
fixed error-reply string of whichever step failed. -/
inductive ImageDownload where
  | ok (data : List Nat)
  | fail (errReply : String)
deriving Repr, DecidableEq

/-- Outcome of the reply-target fetch in `handleMessage`
(`GetEvent` + `ParseRaw` + optional decryption):
`fetchFailed` covers the silent returns (fetch error, parse error,
encrypted original with crypto disabled); `decryptFailed` sends the
fixed decryption-error reply; `image` diverts to `handleImageMessage`
with the original event (its room id rewritten, its body replaced by the
reply's body); `notImage` falls through to text handling. -/
inductive ReplyFetch where
  | fetchFailed
  | decryptFailed
  | image (origSender : String) (origMsg : MessageEventContent)
  | notImage
deriving Repr, DecidableEq

/-- Oracles for the external collaborators of one message handling:
crypto primitives, fresh nonce, reply-target fetch, media download,
provider outcomes, and lookup-module outcomes. -/
structure Env where
  secretboxSeal : SealFn
  secretboxOpenFn : OpenFn
  freshNonce : List Nat
  replyFetch : ReplyFetch
  imageDownload : ImageDownload
  textGen : Except String (String × Int)
  visionGen : Except String (String × Int)
  moduleResult : Except String String
  moduleText : String

/-- The mention-stripping performed (inline, twice) in `src/bot.go`:
`TrimSpace`, remove `"@" + clientUserID`, remove the configured name,
`TrimSpace` again. -/
def stripMention (b : Bot') (s : String) : String :=
  goTrimSpace (goReplaceAll (goReplaceAll (goTrimSpace s)
    ("@" ++ b.clientUserID) "") b.config.name "")

/-- The reply truncation `if len(response) > 2000 { response =
response[:2000] + "..." }`. Go slices the first 2000 bytes; the model
takes 2000 characters, which agrees on single-byte text and is not
observed by any verified property. -/
def truncateReply (s : String) : String :=
  if goLen s > 2000 then s.take 2000 ++ "..." else s

/-- `func (b *Bot) processGeminiRequest(roomID, userID, query)`:
history + system prompt assembly, per-call key override from the credit
store, provider call; on failure a fixed apology and no state change; on
success two history appends, usage recording (a synchronous save in the
legacy store), truncation and the reply. -/
def processGeminiRequest (env : Env) (b : Bot') (roomID userID query : String) :
    Bot' × List Effect :=
  let history := GetConversationHistory b.contextMgr roomID userID
  let fullPrompt := b.config.systemPrompt ++ "\n\n" ++
    (if history ≠ "" then "Conversation history:\n" ++ history ++ "\n\n" else "")
  let apiKey :=
    match Legacy.GetUserAPIKey env.secretboxOpenFn b.userCredits userID with
    | .ok k => if k ≠ "" then k else b.geminiAPIKey
    | .error _ => b.geminiAPIKey
  let useSearch := Legacy.IsSearchEnabled b.userCredits userID
  let callEff := Effect.providerTextCall query fullPrompt apiKey useSearch
  match env.textGen with
  | .error _ =>
    (b, [callEff, Effect.sendReply roomID
      "Sorry, I'm having trouble connecting to Gemini right now."])
  | .ok (response, tokens) =>
    let ctx := AddMessage b.contextMgr roomID userID "user" query
    let ctx := AddMessage ctx roomID userID "assistant" response
    let rec' := Legacy.RecordUsage b.userCredits userID tokens
    ({ b with contextMgr := ctx, userCredits := rec'.1 },
      callEff :: rec'.2 ++ [Effect.sendReply roomID (truncateReply response)])

/-- `func (b *Bot) processVisionRequest(roomID, userID, prompt,
imageData, mimeType)`: per-call key override, vision provider call; on
failure a fixed apology and no state change; on success two history
appends, usage recording and the reply. -/
def processVisionRequest (env : Env) (b : Bot') (roomID userID prompt : String)
    (imageData : List Nat) (mimeType : String) : Bot' × List Effect :=
  let apiKey :=
    match Legacy.GetUserAPIKey env.secretboxOpenFn b.userCredits userID with
    | .ok k => if k ≠ "" then k else b.geminiAPIKey
    | .error _ => b.geminiAPIKey
  let callEff := Effect.providerVisionCall prompt b.config.systemPrompt apiKey
    mimeType imageData
  match env.visionGen with
  | .error _ =>
    (b, [callEff, Effect.sendReply roomID
      "Sorry, I'm having trouble processing the image right now."])
  | .ok (response, tokens) =>
    let ctx := AddMessage b.contextMgr roomID userID "user" prompt
    let ctx := AddMessage ctx roomID userID "assistant" response
    let rec' := Legacy.RecordUsage b.userCredits userID tokens
    ({ b with contextMgr := ctx, userCredits := rec'.1 },
      callEff :: rec'.2 ++ [Effect.sendReply roomID (truncateReply response)])

/-- The fixed reply of `handleImageMessage` when the sender has no
retrievable personal key (`prefix` is `"!" + ToLower(name)`; the format
string adds a second `!`). -/
def imageKeyPrompt (b : Bot') : String :=
  "To analyze images, you need to set your Gemini API key first. Use `!" ++
    ("!" ++ goToLower b.config.name) ++ " setkey <your_api_key>`"

/-- `func (b *Bot) handleImageMessage(ctx, evt, msg)`: requires a
retrievable non-empty personal key (no shared-key fallback at this
gate), announces the analysis, downloads/decrypts the media, strips the
mention from the caption (defaulting to a generic prompt), picks the
MIME type, and hands off to `processVisionRequest`. -/
def handleImageMessage (env : Env) (b : Bot') (roomID sender : String)
    (msg : MessageEventContent) : Bot' × List Effect :=
  let keyRes := Legacy.GetUserAPIKey env.secretboxOpenFn b.userCredits sender
  let keyMissing := match keyRes with
    | .error _ => true
    | .ok k => k = ""
  if keyMissing then (b, [Effect.sendReply roomID (imageKeyPrompt b)])
  else
    let pre := Effect.sendReply roomID "👀 Analyzing image..."
    match env.imageDownload with
    | .fail errReply => (b, [pre, Effect.sendReply roomID errReply])
    | .ok data =>
      let prompt := stripMention b msg.body
      let prompt := if prompt = "" then
          "Describe what you see in this image in detail."
        else prompt
      let mimeType := match msg.mimeInfo with
        | some m => m
        | none => "image/jpeg"
      let r := processVisionRequest env b roomID sender prompt data mimeType
      (r.1, pre :: r.2)

/-- `func (b *Bot) handleCommand(roomID, userID, command)`: whitespace
tokenisation, case-insensitive dispatch on the second token, built-in
handlers (setkey/stats/clear/enable/disable) and pass-through calls to
the lookup modules (whose results arrive through `env.moduleResult` /
`env.moduleText`). -/
def handleCommand (env : Env) (b : Bot') (roomID userID command : String) :
    Bot' × List Effect :=
  let parts := goFields command
  let prefixStr := "!" ++ b.config.name
  match parts with
  | [] => (b, [Effect.sendReply roomID ("Usage: `" ++ prefixStr ++ " setkey`, `" ++ prefixStr ++ " anime`, `" ++ prefixStr ++ " urban`, `" ++ prefixStr ++ " remind`")])
  | [_] => (b, [Effect.sendReply roomID ("Usage: `" ++ prefixStr ++ " setkey`, `" ++ prefixStr ++ " anime`, `" ++ prefixStr ++ " urban`, `" ++ prefixStr ++ " remind`")])
  | _ :: cmd :: args =>
    match goToLower cmd with
    | "setkey" =>
      match args with
      | [] => (b, [Effect.sendReply roomID ("Usage: `" ++ prefixStr ++ " setkey <your_api_key>`")])
      | key :: _ =>
        let r := Legacy.SetUserAPIKey env.secretboxSeal env.freshNonce
          b.userCredits userID key
        ({ b with userCredits := r.1 },
          r.2 ++ [Effect.sendReply roomID "✅ API key saved! Your requests will now use your own key."])
    | "stats" =>
      let stats := Legacy.GetUserStats b.userCredits userID
      let msg := "Tokens used: " ++ toString stats.1 ++
        (if stats.2 then " (using your own API key)"
         else " (global limit: " ++ toString b.userCredits.globalLimit ++ ")")
      (b, [Effect.sendReply roomID msg])
    | "clear" =>
      ({ b with contextMgr := ClearConversation b.contextMgr roomID userID },
        [Effect.sendReply roomID "✅ Conversation history cleared."])
    | "enable" =>
      if args.head? = some "search" then
        let r := Legacy.SetSearchEnabled b.userCredits userID true
        ({ b with userCredits := r.1 },
          r.2 ++ [Effect.sendReply roomID "✅ Google Search Grounding ENABLED for you."])
      else (b, [Effect.sendReply roomID ("Usage: `" ++ prefixStr ++ " enable search`")])
    | "disable" =>
      if args.head? = some "search" then
        let r := Legacy.SetSearchEnabled b.userCredits userID false
        ({ b with userCredits := r.1 },
          r.2 ++ [Effect.sendReply roomID "❌ Google Search Grounding DISABLED for you."])
      else (b, [Effect.sendReply roomID ("Usage: `" ++ prefixStr ++ " disable search`")])
    | "anime" =>
      match args with
      | [] => (b, [Effect.sendReply roomID ("Usage: `" ++ prefixStr ++ " anime <title>`")])
      | _ =>
        let rest := match env.moduleResult with
          | .error e => Effect.sendReply roomID ("Error: " ++ e)
          | .ok result => Effect.sendReply roomID result
        (b, [Effect.sendReply roomID "🔍 Searching AniList...",
          Effect.moduleCall "anime" [String.intercalate " " args], rest])
    | "urban" =>
      match args with
      | [] => (b, [Effect.sendReply roomID ("Usage: `" ++ prefixStr ++ " urban <term>`")])
      | _ =>
        let rest := match env.moduleResult with
          | .error e => Effect.sendReply roomID ("Error: " ++ e)
          | .ok result => Effect.sendReply roomID result
        (b, [Effect.moduleCall "urban" [String.intercalate " " args], rest])
    | "remind" =>
      if args.length < 2 then
        (b, [Effect.sendReply roomID ("Usage: `" ++ prefixStr ++ " remind <time> <text>`")])
      else
        let rest := match env.moduleResult with
          | .error e => Effect.sendReply roomID ("Error: " ++ e)
          | .ok result => Effect.sendReply roomID result
        (b, [Effect.moduleCall "remind" args, rest])
    | "wiki" =>
      match args with
      | [] => (b, [Effect.sendReply roomID ("Usage: `" ++ prefixStr ++ " wiki <topic>`")])
      | _ =>
        let rest := match env.moduleResult with
          | .error e => Effect.sendReply roomID ("Error: " ++ e)
          | .ok result => Effect.sendReply roomID result
        (b, [Effect.sendReply roomID "📖 Searching Wikipedia...",
          Effect.moduleCall "wiki" [String.intercalate " " args], rest])
    | "8ball" =>
      (b, [Effect.moduleCall "8ball" [String.intercalate " " args],
        Effect.sendReply roomID env.moduleText])
    | "roulette" =>
      (b, [Effect.moduleCall "roulette" [userID],
        Effect.sendReply roomID env.moduleText])
    | "poll" =>
      if args.length < 1 then
        (b, [Effect.sendReply roomID ("Usage: `" ++ prefixStr ++ " poll \"Question\" \"Opt1\" \"Opt2\"`")])
      else
        match env.moduleResult with
        | .error e => (b, [Effect.moduleCall "poll" args,
            Effect.sendReply roomID ("Error: " ++ e)])
        | .ok _ => (b, [Effect.moduleCall "poll" args])
    | _ =>
      (b, [Effect.sendReply roomID ("Unknown command. Try `" ++ prefixStr ++ " help` or `" ++ prefixStr ++ " anime`")])

/-- The fixed quota-exceeded remediation reply of `handleMessage`
(`cmdPrefix` already starts with `!`, and the format string adds a
second one). -/
def quotaExceededReply (b : Bot') : String :=
  "Sorry, you've reached your API usage limit. Use `!" ++
    ("!" ++ goToLower b.config.name) ++ " setkey <your_api_key>` to add your own key."

/-- `func (b *Bot) handleMessage(ctx, evt)`: own-message filter,
2-minute staleness filter, content type assertion, mention/command
detection (lower-cased substring or command prefix), image dispatch,
reply-target handling, text filter, mention stripping, command dispatch,
quota gate, and the provider pipeline. `now` is the handling-time clock
in Unix milliseconds (`time.Since(time.UnixMilli(evt.Timestamp))`). -/
def handleMessage (env : Env) (b : Bot') (now : Int) (evt : Event) :
    Bot' × List Effect :=
  if evt.sender = b.clientUserID then (b, [])
  else if now - evt.timestamp > 2 * 60 * 1000 then (b, [])
  else
    match evt.content with
    | none => (b, [])
    | some msg =>
      let cmdPrefix := "!" ++ goToLower b.config.name
      let msgBodyLower := goToLower msg.body
      let isDirect := strContains msgBodyLower (goToLower b.config.name) ||
        goHasPrefix msgBodyLower cmdPrefix
      if isDirect then
        if msg.msgType = MsgType.image then
          handleImageMessage env b evt.roomID evt.sender msg
        else
          let afterReply : Option (Bot' × List Effect) :=
            if msg.hasReplyTo then
              match env.replyFetch with
              | ReplyFetch.fetchFailed => some (b, [])
              | ReplyFetch.decryptFailed => some (b,
                  [Effect.sendReply evt.roomID "Error: Decryption failed. (Note: If you just verified me, please resend the image)."])
              | ReplyFetch.image origSender origMsg => some
                  (handleImageMessage env b evt.roomID origSender
                    { origMsg with body := msg.body })
              | ReplyFetch.notImage => none
            else none
          match afterReply with
          | some r => r
          | none =>
            if msg.msgType ≠ MsgType.text then (b, [])
            else
              let query := stripMention b msg.body
              if query = "" then (b, [])
              else if goHasPrefix msgBodyLower cmdPrefix then
                handleCommand env b evt.roomID evt.sender msg.body
              else if Legacy.CanUseAPI b.userCredits evt.sender then
                processGeminiRequest env b evt.roomID evt.sender query
              else
                (b, [Effect.sendReply evt.roomID (quotaExceededReply b)])
      else (b, [])

/-- Effect discriminator: is this a `sendReply`? -/
def Effect.isSendReply : Effect → Bool
  | .sendReply _ _ => true
  | _ => false

/-- Effect discriminator: is this a credentials-file write? -/
def Effect.isFileWrite : Effect → Bool
  | .fileWrite _ => true
  | _ => false

/-- Effect discriminator: is this a provider invocation (text or vision)? -/
def Effect.isProviderCall : Effect → Bool
  | .providerTextCall _ _ _ _ => true
  | .providerVisionCall _ _ _ _ _ => true
  | _ => false

/-- The API key a provider-invocation effect was issued with. -/
def providerKeyOf : Effect → Option String
  | .providerTextCall _ _ k _ => some k
  | .providerVisionCall _ _ k _ _ => some k
  | _ => none

/-- A concrete oracle environment for witnesses: failing provider,
empty crypto primitives, no reply target, failing download. -/
def sampleEnv : Env :=
  { secretboxSeal := fun _ _ _ => []
    secretboxOpenFn := fun _ _ _ => none
    freshNonce := List.replicate 24 0
    replyFetch := ReplyFetch.notImage
    imageDownload := ImageDownload.fail "Error: Could not download image."
    textGen := Except.error "API error 500: boom"
    visionGen := Except.error "vision API error 500: boom"
    moduleResult := Except.error "unreachable"
    moduleText := "yes" }

/-- A concrete bot whose credit store is empty (no personal keys). -/
def sampleBot : Bot' :=
  { clientUserID := "@bot:server"
    geminiAPIKey := "shared-key"
    config := { name := "gem", systemPrompt := "You are helpful.", maxResponseTokens := 500, maxConversationHistory := 5 }
    userCredits := { users := [], masterKey := List.replicate 32 9, globalLimit := 100 }
    contextMgr := NewContextManager 5 }

/-- A concrete bot whose (keyless) sender has exhausted the quota. -/
def sampleBotOverLimit : Bot' :=
  { clientUserID := "@bot:server"
    geminiAPIKey := "shared-key"
    config := { name := "gem", systemPrompt := "You are helpful.", maxResponseTokens := 500, maxConversationHistory := 5 }
    userCredits := { users := [("@alice:server", { userID := "@alice:server", tokenCount := 100, apiKey := none, nonce := List.replicate 24 0, searchEnabled := false })], masterKey := List.replicate 32 9, globalLimit := 100 }
    contextMgr := NewContextManager 5 }

/-- C10: an inbound event whose timestamp is more than two minutes in
the past at handling time is dropped by `handleMessage` with no reply,
no state change and no other effect, regardless of addressing and
content. -/
theorem stale_message_dropped (env : Env) (b : Bot') (now : Int)
    (evt : Event) (hstale : now - evt.timestamp > 2 * 60 * 1000) :
    handleMessage env b now evt = (b, []) := by
  unfold handleMessage
  by_cases hs : evt.sender = b.clientUserID
  · rw [if_pos hs]
  · rw [if_neg hs, if_pos hstale]

/-- Witness for `stale_message_dropped`: an addressed text message whose
timestamp lies 121 seconds in the past is dropped. -/
theorem stale_message_dropped_witness :
    ((1000000 : Int) - 879000 > 2 * 60 * 1000) ∧
    handleMessage sampleEnv sampleBot 1000000
      { sender := "@alice:server", roomID := "!room:server",
        timestamp := 879000
        content := some { msgType := MsgType.text, body := "gem hello", hasReplyTo := false, mimeInfo := none } } = (sampleBot, []) :=
  ⟨by decide, stale_message_dropped sampleEnv sampleBot 1000000 _ (by decide)⟩

/-- C4: an addressed, fresh, non-command text message (no reply
relation, non-empty query after mention stripping) from a sender that
fails the quota gate is answered with exactly the fixed quota-exceeded
remediation reply; the bot state (history, credits) is unchanged and no
provider call, file write or other effect occurs. -/
theorem quota_gate_blocks (env : Env) (b : Bot') (now : Int) (evt : Event)
    (msg : MessageEventContent)
    (hc : evt.content = some msg)
    (hty : msg.msgType = MsgType.text)
    (hrel : msg.hasReplyTo = false)
    (hsender : evt.sender ≠ b.clientUserID)
    (hfresh : ¬ now - evt.timestamp > 2 * 60 * 1000)
    (hdirect : strContains (goToLower msg.body) (goToLower b.config.name) = true)
    (hnotcmd : goHasPrefix (goToLower msg.body) ("!" ++ goToLower b.config.name) = false)
    (hquery : stripMention b msg.body ≠ "")
    (hquota : Legacy.CanUseAPI b.userCredits evt.sender = false) :
    handleMessage env b now evt =
      (b, [Effect.sendReply evt.roomID (quotaExceededReply b)]) := by
  unfold handleMessage
  rw [if_neg hsender, if_neg hfresh, hc]
  simp only [hdirect, hnotcmd, Bool.true_or, if_true, hty, hrel, hquota,
    reduceCtorEq, if_false, Bool.false_eq_true, ne_eq, not_false_eq_true,
    if_neg hquery]
  simp

/-- Witness for `quota_gate_blocks`: a keyless sender at the limit sends
an addressed non-command text; only the quota reply is emitted and the
state is unchanged. -/
theorem quota_gate_blocks_witness :
    handleMessage sampleEnv sampleBotOverLimit 0
      { sender := "@alice:server", roomID := "!room:server", timestamp := 0,
        content := some { msgType := MsgType.text, body := "gem hello", hasReplyTo := false, mimeInfo := none } } =
      (sampleBotOverLimit,
        [Effect.sendReply "!room:server" (quotaExceededReply sampleBotOverLimit)]) :=
  quota_gate_blocks sampleEnv sampleBotOverLimit 0 _ _
    rfl rfl rfl (by decide) (by decide) (by decide) (by decide) (by decide)
    (by decide)

/-- C5: when the provider call fails (any error, including a
safety-block), both the text and the vision pipeline leave the bot state
— conversation history and recorded usage — exactly as it was, send only
the fixed apology reply, and write nothing to disk. -/
theorem provider_error_preserves_state (env : Env) (b : Bot')
    (roomID userID query prompt mimeType : String) (imageData : List Nat)
    (e₁ e₂ : String)
    (htext : env.textGen = .error e₁) (hvision : env.visionGen = .error e₂) :
    ((processGeminiRequest env b roomID userID query).1 = b ∧
     (processGeminiRequest env b roomID userID query).2.filter
       Effect.isSendReply =
       [Effect.sendReply roomID "Sorry, I'm having trouble connecting to Gemini right now."] ∧
     (processGeminiRequest env b roomID userID query).2.filter
       Effect.isFileWrite = []) ∧
    ((processVisionRequest env b roomID userID prompt imageData mimeType).1 = b ∧
     (processVisionRequest env b roomID userID prompt imageData mimeType).2.filter
       Effect.isSendReply =
       [Effect.sendReply roomID "Sorry, I'm having trouble processing the image right now."] ∧
     (processVisionRequest env b roomID userID prompt imageData mimeType).2.filter
       Effect.isFileWrite = []) := by
  unfold processGeminiRequest processVisionRequest
  rw [htext, hvision]
  simp [Effect.isSendReply, Effect.isFileWrite]

/-- Witness for `provider_error_preserves_state` at a concrete bot and
failing provider. -/
theorem provider_error_preserves_state_witness :
    (processGeminiRequest sampleEnv sampleBot "!room:server" "@alice:server" "hi").1 = sampleBot ∧
    (processVisionRequest sampleEnv sampleBot "!room:server" "@alice:server" "look" [1, 2] "image/png").1 = sampleBot := by
  have h := provider_error_preserves_state sampleEnv sampleBot
    "!room:server" "@alice:server" "hi" "look" "image/png" [1, 2]
    "API error 500: boom" "vision API error 500: boom" rfl rfl
  exact ⟨h.1.1, h.2.1⟩

/-- C8 counterexample: an image message from a sender with no
retrievable personal key is answered with the fixed "set your API key"
prompt; no generation is performed (no provider call in the effect
trace) and the shared service key is never used — refuting the claim
that vision generation falls back to the shared key. -/
theorem vision_no_shared_key_fallback :
    handleImageMessage sampleEnv sampleBot "!room:server" "@alice:server"
      { msgType := MsgType.image, body := "gem what is this", hasReplyTo := false, mimeInfo := none } =
      (sampleBot, [Effect.sendReply "!room:server" (imageKeyPrompt sampleBot)]) ∧
    (handleImageMessage sampleEnv sampleBot "!room:server" "@alice:server"
      { msgType := MsgType.image, body := "gem what is this", hasReplyTo := false, mimeInfo := none }).2.filter
      Effect.isProviderCall = [] := by
  exact ⟨rfl, rfl⟩

/-- C8 (amended): credential errors are surfaced in the vision path —
`handleImageMessage` answers a sender with no retrievable personal key
with the fixed set-your-key prompt and performs no generation — while
the text path falls back to the shared service-wide key and still issues
the provider call (the first effect is a provider invocation carrying
the shared key). -/
theorem credential_error_scope (env : Env) (b : Bot')
    (roomID sender query e : String) (msg : MessageEventContent)
    (hkey : Legacy.GetUserAPIKey env.secretboxOpenFn b.userCredits sender =
      .error e) :
    handleImageMessage env b roomID sender msg =
      (b, [Effect.sendReply roomID (imageKeyPrompt b)]) ∧
    ((processGeminiRequest env b roomID sender query).2.head?.bind
      providerKeyOf) = some b.geminiAPIKey := by
  constructor
  · simp only [handleImageMessage, hkey]
    simp
  · simp only [processGeminiRequest, hkey]
    cases htg : env.textGen <;> simp [providerKeyOf]

/-- Witness for `credential_error_scope` at a concrete bot with an empty
credit store. -/
theorem credential_error_scope_witness :
    handleImageMessage sampleEnv sampleBot "!room:server" "@u:server"
      { msgType := MsgType.image, body := "", hasReplyTo := false, mimeInfo := none } =
      (sampleBot, [Effect.sendReply "!room:server" (imageKeyPrompt sampleBot)]) ∧
    ((processGeminiRequest sampleEnv sampleBot "!room:server" "@u:server" "hi").2.head?.bind
      providerKeyOf) = some sampleBot.geminiAPIKey :=
  credential_error_scope sampleEnv sampleBot "!room:server" "@u:server" "hi"
    "no API key found for user" _ rfl
